import Mathlib

/-!
Verification development for the FAA Part 117 FDP tracker
(src/flightTracker.py).

The core logic of the program is a pure function library: a time codec
between 4-character HHMM clock strings and minute counts
(hhmm_to_minutes, minutes_to_hhmm), an FDP limit resolver
(calculate_fdp_limits), a per-role duty status evaluator
(calculate_progress_data), a per-aircraft aggregation
(create_aircraft_card) and a fleet alert summary (the statistics and
alert-summary loops in main).

Modelling conventions used throughout this file:
  - Python decimal strings of digits are modelled as lists of digit
    values (List Nat, most significant first); a possibly signed
    decimal string, as produced by str(int(...)), is modelled by the
    structure PyNumStr (a sign flag plus the digit list).  Slicing
    s[:2] and s[2:] on such a string is modelled on that
    representation, including the case where the first character is
    the minus sign.
  - Python floats are modelled as rationals.  int(x) truncation toward
    zero for positive x is Int.floor.
  - A value that may arrive as None / NaN / a string / a number is
    modelled by the inductive HHMMInput, classified by how Python's
    pd.isna check and float()/int() conversion treat it:
      noneVal, nanVal        : pd.isna(x) is true, first branch, 0
      emptyStr               : x equals the empty string, 0
      unparseable            : float(x) (or int of NaN) raises
                               ValueError or TypeError, caught, 0
      infiniteVal            : float(x) is an infinity; int(inf) raises
                               OverflowError, which the except clause
                               (ValueError, TypeError) does NOT catch,
                               so the exception escapes; modelled as
                               the Option value none
      numeric v              : int(float(x)) succeeds with value v
  - A function that can raise an uncaught exception returns an Option;
    none models the escaped exception.
-/

namespace FlightTracker

/-- Value of a list of decimal digit characters, most significant first,
as computed by Python int() on the corresponding digit string. -/
def digitsToNat (l : List Nat) : Nat :=
  l.foldl (fun a d => 10 * a + d) 0

/-- Fuel-driven most-significant-first decimal digits of a natural number;
with fuel at least n this is the digit string of Python str(n) for n > 0. -/
def natDigitsGo : Nat → Nat → List Nat
  | _, 0 => []
  | 0, _ + 1 => []
  | f + 1, n + 1 => natDigitsGo f ((n + 1) / 10) ++ [(n + 1) % 10]

/-- Digit characters of Python str(n) for a natural number n
(str(0) is the one-character string of the digit 0). -/
def pyNatDigits (n : Nat) : List Nat :=
  if n = 0 then [0] else natDigitsGo n n

/-- Fuel-driven count of decimal digits, mirroring natDigitsGo. -/
def digitCountGo : Nat → Nat → Nat
  | _, 0 => 0
  | 0, _ + 1 => 0
  | f + 1, n + 1 => digitCountGo f ((n + 1) / 10) + 1

/-- Number of characters of Python str(n) for a natural number n. -/
def digitCount (n : Nat) : Nat :=
  if n = 0 then 1 else digitCountGo n n

/-- Python str.zfill restricted to an unsigned digit string: left-pad
with zero digits to length k (no truncation if already longer). -/
def zfillDigits (k : Nat) (l : List Nat) : List Nat :=
  List.replicate (k - l.length) 0 ++ l

/-- A possibly signed decimal string as produced by Python str on an int:
a sign flag (true when the string starts with the minus character) and
the decimal digit characters that follow. -/
structure PyNumStr where
  neg : Bool
  digits : List Nat
deriving DecidableEq

/-- Python str(v) for an integer v. -/
def pyStr (v : Int) : PyNumStr :=
  ⟨decide (v < 0), pyNatDigits v.natAbs⟩

/-- Python s.zfill(4) on a possibly signed decimal string: the sign
character counts toward the target length, and padding zeros are
inserted after the sign. -/
def pyZfill4 (s : PyNumStr) : PyNumStr :=
  if s.neg then ⟨true, zfillDigits 3 s.digits⟩ else ⟨false, zfillDigits 4 s.digits⟩

/-- The pair int(s[:2]), int(s[2:]) on a possibly signed decimal string s
of length at least 4 (as guaranteed after zfill(4)).  For a negative
string the slice s[:2] is the minus sign followed by the first digit,
so its int value is minus that digit; s[2:] is the remaining digits. -/
def splitHHMM (s : PyNumStr) : Int × Int :=
  if s.neg then
    match s.digits with
    | [] => (0, 0)
    | d :: rest => (-(d : Int), (digitsToNat rest : Int))
  else
    ((digitsToNat (s.digits.take 2) : Int), (digitsToNat (s.digits.drop 2) : Int))

/-- Source lines 98-103 of hhmm_to_minutes, on the numeric value v
already produced by int(float(input)): render v in decimal, zfill to 4
characters, split at position 2 into an hour part and a minute part,
and apply the range guard. -/
def hhmm_to_minutes_num (v : Int) : Nat :=
  let s := pyZfill4 (pyStr v)
  let hm := splitHHMM s
  if hm.1 < 0 ∨ 23 < hm.1 ∨ hm.2 < 0 ∨ 59 < hm.2 then 0
  else (hm.1 * 60 + hm.2).toNat

/-- Classification of an arbitrary Python value passed to
hhmm_to_minutes, by how the guards and conversions of the source treat
it; see the module comment. -/
inductive HHMMInput where
  | noneVal : HHMMInput
  | nanVal : HHMMInput
  | emptyStr : HHMMInput
  | unparseable : HHMMInput
  | infiniteVal : Bool → HHMMInput
  | numeric : Int → HHMMInput
deriving DecidableEq

/-- Source lines 93-105: hhmm_to_minutes.  The result none models the
uncaught OverflowError raised by int() on an infinite float (the except
clause catches only ValueError and TypeError). -/
def hhmm_to_minutes : HHMMInput → Option Nat
  | HHMMInput.noneVal => some 0
  | HHMMInput.nanVal => some 0
  | HHMMInput.emptyStr => some 0
  | HHMMInput.unparseable => some 0
  | HHMMInput.infiniteVal _ => none
  | HHMMInput.numeric v => some (hhmm_to_minutes_num v)

/-- Source lines 107-115: minutes_to_hhmm.  The input may be a float
(remaining minutes are computed in float arithmetic), modelled as a
rational; the output is the list of the four digit characters of the
HHMM string. -/
def minutes_to_hhmm (total_minutes : ℚ) : List Nat :=
  if total_minutes ≤ 0 then [0, 0, 0, 0]
  else
    let tm : Nat := (⌊total_minutes⌋).toNat
    let hours : Nat := tm / 60
    let minutes : Nat := tm % 60
    let hours2 : Nat := if 24 ≤ hours then hours % 24 else hours
    zfillDigits 2 (pyNatDigits hours2) ++ zfillDigits 2 (pyNatDigits minutes)

/-- Specification-side restatement of the decoding rule, phrased with
quotient and remainder arithmetic on the numeric value instead of
string slicing: hour is the leading digits (the value divided by ten to
the number of trailing characters), minute the trailing digits.  For a
negative value the hour slice is the sign plus the leading digit of the
3-zfilled magnitude, so any nonzero leading digit zeroes the result. -/
def decode_spec : HHMMInput → Nat
  | HHMMInput.numeric v =>
      if 0 ≤ v then
        let n := v.toNat
        let p := max 4 (digitCount n) - 2
        if 23 < n / 10 ^ p ∨ 59 < n % 10 ^ p then 0
        else (n / 10 ^ p) * 60 + n % 10 ^ p
      else
        let m := v.natAbs
        let p := max 3 (digitCount m) - 1
        if 0 < m / 10 ^ p ∨ 59 < m % 10 ^ p then 0 else m % 10 ^ p
  | _ => 0

/-- Whole-minute image of minutes_to_hhmm on natural number inputs. -/
def hhmmOfNatMinutes (tm : Nat) : List Nat :=
  if tm = 0 then [0, 0, 0, 0]
  else
    zfillDigits 2 (pyNatDigits (if 24 ≤ tm / 60 then tm / 60 % 24 else tm / 60))
      ++ zfillDigits 2 (pyNatDigits (tm % 60))

/-- Source lines 117-130: calculate_fdp_limits.  The check-in clock time
arrives as a string of decimal digit characters, modelled as a list of
digits; the source computes hours = int(str(x).zfill(4)[:2]) and then
compares that two-character value against the bands 500-759, 800-1259
and 1300-1659 (Python chained comparisons).  segments is an integer
(the source default is 1; the caller passes 2). -/
def calculate_fdp_limits (start_time_hhmm : List (Fin 10)) (segments : Int) : Nat :=
  let hours := digitsToNat ((zfillDigits 4 (start_time_hhmm.map Fin.val)).take 2)
  if 500 ≤ hours ∧ hours ≤ 759 then (if segments ≤ 2 then 14 else 13)
  else if 800 ≤ hours ∧ hours ≤ 1259 then (if segments ≤ 2 then 13 else 12)
  else if 1300 ≤ hours ∧ hours ≤ 1659 then (if segments ≤ 2 then 12 else 11)
  else (if segments ≤ 2 then 11 else 10)

/-- The status strings used by calculate_progress_data. -/
inductive Status where
  | critical : Status
  | warning : Status
  | ok : Status
  | error : Status
deriving DecidableEq

/-- Source lines 151-160: the status tier chosen from the remaining
minutes. -/
def remaining_status (remaining_minutes : ℚ) : Status :=
  if remaining_minutes ≤ 60 then Status.critical
  else if remaining_minutes ≤ 120 then Status.warning
  else Status.ok

/-- Source lines 151-160: the bar color chosen from the remaining
minutes. -/
def remaining_color (remaining_minutes : ℚ) : String :=
  if remaining_minutes ≤ 60 then "#e74c3c"
  else if remaining_minutes ≤ 120 then "#f39c12"
  else "#2ecc71"

/-- Source line 148: remaining_minutes = max(0, max_minutes - elapsed_minutes). -/
def remaining_minutes_of (max_minutes elapsed_minutes : ℚ) : ℚ :=
  max 0 (max_minutes - elapsed_minutes)

/-- Source line 149: progress_percent, with the divide-by-zero guard. -/
def progress_percent_of (max_minutes elapsed_minutes : ℚ) : ℚ :=
  if 0 < max_minutes then min 100 (elapsed_minutes / max_minutes * 100) else 0

/-- The dictionary returned by calculate_progress_data: percent, the
remaining and max clock strings, the elapsed value as passed in, a
color string and a status.  In the error branch the elapsed field holds
the literal string 0000, represented by its numeric classification. -/
structure ProgressData where
  progress_percent : ℚ
  remaining_hhmm : List Nat
  elapsed_hhmm : HHMMInput
  max_hhmm : List Nat
  color : String
  status : Status
deriving DecidableEq

/-- One role's slice of an aircraft row: the max-FDP hours cell and the
elapsed clock cell.  maxHours is none when the cell does not hold a
finite number (a missing field or non-numeric value), in which case the
arithmetic of the try block raises and the except branch runs. -/
structure RoleInput where
  maxHours : Option ℚ
  elapsed : HHMMInput
deriving DecidableEq

/-- Source lines 170-178: the dictionary built by the except branch. -/
def error_progress_data : ProgressData :=
  ⟨0, [0, 0, 0, 0], HHMMInput.numeric 0, [0, 0, 0, 0], "#95a5a6", Status.error⟩

/-- Source lines 132-178: calculate_progress_data for one role.  The
except branch (bare except Exception) also absorbs the OverflowError
that hhmm_to_minutes lets escape on an infinite elapsed value, which is
why the match also sends a none decode result to the error dictionary. -/
def calculate_progress_data (ri : RoleInput) : ProgressData :=
  match ri.maxHours, hhmm_to_minutes ri.elapsed with
  | some max_time, some em =>
      let max_minutes : ℚ := max_time * 60
      let elapsed_minutes : ℚ := (em : ℚ)
      let remaining_minutes : ℚ := remaining_minutes_of max_minutes elapsed_minutes
      ⟨progress_percent_of max_minutes elapsed_minutes,
       minutes_to_hhmm remaining_minutes,
       ri.elapsed,
       minutes_to_hhmm max_minutes,
       remaining_color remaining_minutes,
       remaining_status remaining_minutes⟩
  | _, _ => error_progress_data

/-- The three CSS card classes of create_aircraft_card; aircraft_card is
the neutral (normal, green check) presentation. -/
inductive CardClass where
  | critical_card : CardClass
  | warning_card : CardClass
  | aircraft_card : CardClass
deriving DecidableEq

/-- Source lines 207-217: the overall card class from the list of the
three role statuses. -/
def card_class_of (statuses : List Status) : CardClass :=
  if Status.critical ∈ statuses then CardClass.critical_card
  else if Status.warning ∈ statuses then CardClass.warning_card
  else CardClass.aircraft_card

/-- The three role evaluations of one aircraft. -/
structure AircraftProgress where
  CA : ProgressData
  FO : ProgressData
  Cabin : ProgressData
deriving DecidableEq

/-- The status list [data['status'] for data in aircraft_data.values()]. -/
def statuses_of (d : AircraftProgress) : List Status :=
  [d.CA.status, d.FO.status, d.Cabin.status]

/-- The data content of the card HTML built by create_aircraft_card:
its class, the tail number and the headline remaining figure. -/
structure Card where
  card_class : CardClass
  tail : String
  headline_remaining : List Nat
deriving DecidableEq

/-- Source lines 205-231: create_aircraft_card; the headline line 227
interpolates aircraft_data['CA']['remaining_hhmm']. -/
def create_aircraft_card (tail : String) (d : AircraftProgress) : Card :=
  ⟨card_class_of (statuses_of d), tail, d.CA.remaining_hhmm⟩

/-- Severity rank of a status: critical above warning above the rest;
the code's aggregation never inspects error, so it ranks with ok. -/
def severity : Status → Nat
  | Status.critical => 2
  | Status.warning => 1
  | Status.ok => 0
  | Status.error => 0

/-- One row of the aircraft table: tail number plus the three role
slices. -/
structure AircraftRow where
  tail : String
  CA : RoleInput
  FO : RoleInput
  Cabin : RoleInput
deriving DecidableEq

/-- The list [ca_data['status'], fo_data['status'], cabin_data['status']]
for a row. -/
def row_statuses (r : AircraftRow) : List Status :=
  [(calculate_progress_data r.CA).status,
   (calculate_progress_data r.FO).status,
   (calculate_progress_data r.Cabin).status]

/-- any(data['status'] == 'critical' for data in [ca, fo, cabin]). -/
def any_critical (r : AircraftRow) : Bool :=
  (row_statuses r).any (fun s => s == Status.critical)

/-- any(data['status'] == 'warning' for data in [ca, fo, cabin]). -/
def any_warning (r : AircraftRow) : Bool :=
  (row_statuses r).any (fun s => s == Status.warning)

/-- One iteration of the alert-summary loop body of main. -/
def alert_step (acc : List String × List String) (r : AircraftRow) :
    List String × List String :=
  if any_critical r then (acc.1 ++ [r.tail], acc.2)
  else if any_warning r then (acc.1, acc.2 ++ [r.tail])
  else acc

/-- Source lines 386-399: the alert-summary loop of main, appending each
tail number to the critical list on any critical role, else to the
warning list on any warning role. -/
def alert_summary (rows : List AircraftRow) : List String × List String :=
  rows.foldl alert_step ([], [])

/-- One iteration of the statistics loop body of main. -/
def count_step (acc : Nat × Nat) (r : AircraftRow) : Nat × Nat :=
  if any_critical r then (acc.1 + 1, acc.2)
  else if any_warning r then (acc.1, acc.2 + 1)
  else acc

/-- Source lines 335-348: the statistics loop of main, incrementing the
critical counter on any critical role, else the warning counter on any
warning role. -/
def alert_counts (rows : List AircraftRow) : Nat × Nat :=
  rows.foldl count_step (0, 0)

/-- Source line 336: total_aircraft = len(st.session_state.aircraft_data). -/
def total_aircraft (rows : List AircraftRow) : Nat := rows.length

/-- A role slice with one hour of maximum duty and nothing elapsed:
remaining 60 minutes, status critical. -/
def roleCritical : RoleInput := ⟨some ((1 : Nat) : ℚ), HHMMInput.numeric 0⟩

/-- A role slice with two hours of maximum duty and nothing elapsed:
remaining 120 minutes, status warning. -/
def roleWarning : RoleInput := ⟨some ((2 : Nat) : ℚ), HHMMInput.numeric 0⟩

/-- A role slice with thirteen hours of maximum duty and nothing
elapsed: remaining 780 minutes, status ok. -/
def roleOk : RoleInput := ⟨some ((13 : Nat) : ℚ), HHMMInput.numeric 0⟩

/-- Three aircraft whose aggregate statuses are critical, warning and
normal respectively. -/
def summaryDemoRows : List AircraftRow :=
  [⟨"N1", roleCritical, roleOk, roleOk⟩,
   ⟨"N2", roleWarning, roleOk, roleOk⟩,
   ⟨"N3", roleOk, roleOk, roleOk⟩]

/-- A row whose Captain cell has a non-numeric max (role status error)
and whose other two roles are healthy. -/
def errorRow : AircraftRow :=
  ⟨"N999XX", ⟨none, HHMMInput.noneVal⟩, roleOk, roleOk⟩

/-- An aircraft whose Captain has 180 minutes remaining while the First
Officer has only 60 remaining, so the Captain figure is not the minimum
across roles. -/
def headline_demo : AircraftProgress :=
  ⟨calculate_progress_data ⟨some ((4 : Nat) : ℚ), HHMMInput.numeric 100⟩,
   calculate_progress_data ⟨some ((4 : Nat) : ℚ), HHMMInput.numeric 300⟩,
   calculate_progress_data ⟨some ((4 : Nat) : ℚ), HHMMInput.numeric 100⟩⟩

/-- Folding digits from an arbitrary accumulator scales the accumulator
by ten to the number of digits. -/
theorem digitsToNat_from (l : List Nat) (a : Nat) :
    l.foldl (fun x d => 10 * x + d) a = a * 10 ^ l.length + digitsToNat l := by
  induction l generalizing a with
  | nil => simp [digitsToNat]
  | cons d t ih =>
    simp only [List.foldl_cons, List.length_cons, digitsToNat]
    rw [ih (10 * a + d), ih (10 * 0 + d)]
    ring

/-- Value of a concatenation of digit strings. -/
theorem digitsToNat_append (a b : List Nat) :
    digitsToNat (a ++ b) = digitsToNat a * 10 ^ b.length + digitsToNat b := by
  unfold digitsToNat
  rw [List.foldl_append, digitsToNat_from]
  rfl

/-- A string of zero digits has value zero. -/
theorem digitsToNat_replicate_zero (k : Nat) :
    digitsToNat (List.replicate k 0) = 0 := by
  induction k with
  | zero => rfl
  | succ n ih =>
    rw [List.replicate_succ]
    unfold digitsToNat at ih ⊢
    simpa using ih

/-- Left-padding with zero digits does not change the value. -/
theorem digitsToNat_zfill (k : Nat) (l : List Nat) :
    digitsToNat (zfillDigits k l) = digitsToNat l := by
  unfold zfillDigits
  rw [digitsToNat_append, digitsToNat_replicate_zero]
  simp

/-- A string of decimal digits of length n has value below ten to the n. -/
theorem digitsToNat_lt (l : List Nat) (h : ∀ d ∈ l, d < 10) :
    digitsToNat l < 10 ^ l.length := by
  induction l with
  | nil => simp [digitsToNat]
  | cons d t ih =>
    have hdt : digitsToNat (d :: t) = d * 10 ^ t.length + digitsToNat t := by
      unfold digitsToNat
      rw [List.foldl_cons, digitsToNat_from]
      norm_num
      rfl
    have h1 : digitsToNat t < 10 ^ t.length := ih (fun x hx => h x (List.mem_cons_of_mem d hx))
    have hd : d < 10 := h d (List.mem_cons_self d t)
    rw [hdt, List.length_cons]
    calc d * 10 ^ t.length + digitsToNat t < (d + 1) * 10 ^ t.length := by
          rw [Nat.add_mul, Nat.one_mul]
          omega
      _ ≤ 10 * 10 ^ t.length := Nat.mul_le_mul_right _ (by omega)
      _ = 10 ^ (t.length + 1) := by ring

/-- With enough fuel, natDigitsGo produces the reversed little-endian
base-ten digits of its argument. -/
theorem natDigitsGo_eq (f : Nat) : ∀ n : Nat, n ≤ f →
    natDigitsGo f n = (Nat.digits 10 n).reverse := by
  induction f with
  | zero =>
    intro n hn
    have : n = 0 := Nat.le_zero.mp hn
    subst this
    simp [natDigitsGo]
  | succ f ih =>
    intro n hn
    match n with
    | 0 => simp [natDigitsGo]
    | m + 1 =>
      have hdiv : (m + 1) / 10 < m + 1 := Nat.div_lt_self (Nat.succ_pos m) (by norm_num)
      have hf : (m + 1) / 10 ≤ f := by omega
      show natDigitsGo f ((m + 1) / 10) ++ [(m + 1) % 10] = _
      rw [ih _ hf, Nat.digits_def' (by norm_num : (1 : ℕ) < 10) (Nat.succ_pos m)]
      simp

/-- For a positive number, pyNatDigits agrees with the reversed
Mathlib digit list. -/
theorem pyNatDigits_eq (n : Nat) (h : n ≠ 0) :
    pyNatDigits n = (Nat.digits 10 n).reverse := by
  unfold pyNatDigits
  rw [if_neg h]
  exact natDigitsGo_eq n n le_rfl

/-- Reading a reversed digit list is Mathlib ofDigits. -/
theorem digitsToNat_reverse (l : List Nat) :
    digitsToNat l.reverse = Nat.ofDigits 10 l := by
  induction l with
  | nil => simp [digitsToNat, Nat.ofDigits]
  | cons d t ih =>
    rw [List.reverse_cons, digitsToNat_append, ih, Nat.ofDigits_cons]
    have : digitsToNat [d] = d := by simp [digitsToNat]
    rw [this]
    simp
    ring

/-- Rendering a natural number in decimal and reading it back is the
identity. -/
theorem pyNatDigits_val (n : Nat) : digitsToNat (pyNatDigits n) = n := by
  by_cases h : n = 0
  · subst h; rfl
  · rw [pyNatDigits_eq n h, digitsToNat_reverse, Nat.ofDigits_digits]

/-- All characters of a decimal rendering are digits. -/
theorem pyNatDigits_lt (n : Nat) : ∀ d ∈ pyNatDigits n, d < 10 := by
  by_cases h : n = 0
  · subst h; intro d hd; simp [pyNatDigits] at hd; omega
  · rw [pyNatDigits_eq n h]
    intro d hd
    exact Nat.digits_lt_base (by norm_num) (List.mem_reverse.mp hd)

/-- All characters of a zero-padded digit string are digits. -/
theorem zfillDigits_lt (k : Nat) (l : List Nat) (h : ∀ d ∈ l, d < 10) :
    ∀ d ∈ zfillDigits k l, d < 10 := by
  intro d hd
  unfold zfillDigits at hd
  rcases List.mem_append.mp hd with h1 | h2
  · have := List.eq_of_mem_replicate h1
    omega
  · exact h d h2

/-- digitCountGo mirrors the length of natDigitsGo. -/
theorem digitCountGo_eq (f : Nat) : ∀ n : Nat,
    digitCountGo f n = (natDigitsGo f n).length := by
  induction f with
  | zero =>
    intro n
    match n with
    | 0 => rfl
    | _ + 1 => rfl
  | succ f ih =>
    intro n
    match n with
    | 0 => rfl
    | m + 1 =>
      show digitCountGo f ((m + 1) / 10) + 1 = (natDigitsGo f ((m + 1) / 10) ++ [(m + 1) % 10]).length
      rw [ih]
      simp

/-- digitCount is the length of the decimal rendering. -/
theorem digitCount_eq (n : Nat) : digitCount n = (pyNatDigits n).length := by
  unfold digitCount pyNatDigits
  by_cases h : n = 0
  · simp [h]
  · rw [if_neg h, if_neg h, digitCountGo_eq]

/-- A number below ten to the k has at most k decimal digits
(for k at least one). -/
theorem pyNatDigits_length_le (n k : Nat) (hk : 1 ≤ k) (h : n < 10 ^ k) :
    (pyNatDigits n).length ≤ k := by
  by_cases h0 : n = 0
  · subst h0; simpa [pyNatDigits] using hk
  · rw [pyNatDigits_eq n h0, List.length_reverse,
      Nat.digits_len 10 n (by norm_num) h0]
    have := (Nat.lt_pow_iff_log_lt (by norm_num : 1 < 10) h0).mp h
    omega

/-- The decimal rendering is never empty. -/
theorem pyNatDigits_length_pos (n : Nat) : 1 ≤ (pyNatDigits n).length := by
  by_cases h : n = 0
  · subst h; simp [pyNatDigits]
  · rw [pyNatDigits_eq n h, List.length_reverse]
    have hne : Nat.digits 10 n ≠ [] := Nat.digits_ne_nil_iff_ne_zero.mpr h
    exact List.length_pos_of_ne_nil hne

/-- Length of a zero-padded digit string. -/
theorem zfillDigits_length (k : Nat) (l : List Nat) :
    (zfillDigits k l).length = max k l.length := by
  unfold zfillDigits
  simp
  omega

/-- Splitting a digit string at position j splits its value into the
quotient and remainder by ten to the number of trailing digits. -/
theorem digitsToNat_take_drop (l : List Nat) (j : Nat) (h : ∀ d ∈ l, d < 10) :
    digitsToNat (l.take j) = digitsToNat l / 10 ^ (l.length - j)
    ∧ digitsToNat (l.drop j) = digitsToNat l % 10 ^ (l.length - j) := by
  have hlen : (l.drop j).length = l.length - j := List.length_drop j l
  have hval : digitsToNat l
      = digitsToNat (l.take j) * 10 ^ (l.length - j) + digitsToNat (l.drop j) := by
    conv_lhs => rw [← List.take_append_drop j l]
    rw [digitsToNat_append, hlen]
  have hlt : digitsToNat (l.drop j) < 10 ^ (l.length - j) := by
    rw [← hlen]
    exact digitsToNat_lt _ (fun d hd => h d ((List.drop_sublist j l).subset hd))
  have hD : 0 < 10 ^ (l.length - j) := pow_pos (by norm_num) _
  constructor
  · symm
    calc digitsToNat l / 10 ^ (l.length - j)
        = (digitsToNat (l.drop j) + 10 ^ (l.length - j) * digitsToNat (l.take j))
            / 10 ^ (l.length - j) := by rw [hval]; ring_nf
      _ = digitsToNat (l.drop j) / 10 ^ (l.length - j) + digitsToNat (l.take j) :=
          Nat.add_mul_div_left _ _ hD
      _ = digitsToNat (l.take j) := by rw [Nat.div_eq_of_lt hlt]; omega
  · symm
    calc digitsToNat l % 10 ^ (l.length - j)
        = (digitsToNat (l.drop j) + 10 ^ (l.length - j) * digitsToNat (l.take j))
            % 10 ^ (l.length - j) := by rw [hval]; ring_nf
      _ = digitsToNat (l.drop j) % 10 ^ (l.length - j) := Nat.add_mul_mod_self_left _ _ _
      _ = digitsToNat (l.drop j) := Nat.mod_eq_of_lt hlt

/-- Arithmetic characterization of the numeric path of hhmm_to_minutes
for a non-negative input: the first two characters of the 4-zfilled
decimal string carry the quotient, the remaining characters the
remainder, by ten to the number of remaining characters. -/
theorem hhmm_num_natCast (n : Nat) :
    hhmm_to_minutes_num (n : Int) =
      if 23 < n / 10 ^ (max 4 (digitCount n) - 2)
          ∨ 59 < n % 10 ^ (max 4 (digitCount n) - 2)
      then 0
      else (n / 10 ^ (max 4 (digitCount n) - 2)) * 60
            + n % 10 ^ (max 4 (digitCount n) - 2) := by
  have h1 : pyStr (n : Int) = ⟨false, pyNatDigits n⟩ := by
    unfold pyStr
    simp
  have h2 : pyZfill4 ⟨false, pyNatDigits n⟩
      = ⟨false, zfillDigits 4 (pyNatDigits n)⟩ := rfl
  have h3 : splitHHMM ⟨false, zfillDigits 4 (pyNatDigits n)⟩
      = (((digitsToNat ((zfillDigits 4 (pyNatDigits n)).take 2) : Nat) : Int),
         ((digitsToNat ((zfillDigits 4 (pyNatDigits n)).drop 2) : Nat) : Int)) := rfl
  have hall : ∀ d ∈ zfillDigits 4 (pyNatDigits n), d < 10 :=
    zfillDigits_lt _ _ (pyNatDigits_lt n)
  have hlenL : (zfillDigits 4 (pyNatDigits n)).length = max 4 (digitCount n) := by
    rw [zfillDigits_length, digitCount_eq]
  have hvalL : digitsToNat (zfillDigits 4 (pyNatDigits n)) = n := by
    rw [digitsToNat_zfill, pyNatDigits_val]
  obtain ⟨ht, hd⟩ := digitsToNat_take_drop (zfillDigits 4 (pyNatDigits n)) 2 hall
  rw [hvalL, hlenL] at ht hd
  simp only [hhmm_to_minutes_num, h1, h2, h3, ht, hd]
  by_cases hc : 23 < n / 10 ^ (max 4 (digitCount n) - 2)
      ∨ 59 < n % 10 ^ (max 4 (digitCount n) - 2)
  · rw [if_pos hc, if_pos]
    rcases hc with hc | hc
    · exact Or.inr (Or.inl (by exact_mod_cast hc))
    · exact Or.inr (Or.inr (Or.inr (by exact_mod_cast hc)))
  · rw [if_neg hc, if_neg]
    · push_neg at hc
      omega
    · push_neg at hc
      intro hcon
      rcases hcon with h | h | h | h <;> omega

/-- Arithmetic characterization of the numeric path of hhmm_to_minutes
for a negative input: the 4-zfilled string starts with the minus sign,
so the hour slice holds minus the leading digit and the minute slice
all remaining digits. -/
theorem hhmm_num_neg (v : Int) (hv : v < 0) :
    hhmm_to_minutes_num v =
      if 0 < v.natAbs / 10 ^ (max 3 (digitCount v.natAbs) - 1)
          ∨ 59 < v.natAbs % 10 ^ (max 3 (digitCount v.natAbs) - 1)
      then 0
      else v.natAbs % 10 ^ (max 3 (digitCount v.natAbs) - 1) := by
  have h1 : pyStr v = ⟨true, pyNatDigits v.natAbs⟩ := by
    unfold pyStr
    rw [decide_eq_true hv]
  have h2 : pyZfill4 ⟨true, pyNatDigits v.natAbs⟩
      = ⟨true, zfillDigits 3 (pyNatDigits v.natAbs)⟩ := rfl
  have hall : ∀ d ∈ zfillDigits 3 (pyNatDigits v.natAbs), d < 10 :=
    zfillDigits_lt _ _ (pyNatDigits_lt v.natAbs)
  have hlenL : (zfillDigits 3 (pyNatDigits v.natAbs)).length
      = max 3 (digitCount v.natAbs) := by
    rw [zfillDigits_length, digitCount_eq]
  have hvalL : digitsToNat (zfillDigits 3 (pyNatDigits v.natAbs)) = v.natAbs := by
    rw [digitsToNat_zfill, pyNatDigits_val]
  have hpos : 0 < (zfillDigits 3 (pyNatDigits v.natAbs)).length := by
    rw [hlenL]; omega
  obtain ⟨d, rest, hcons⟩ : ∃ d rest,
      zfillDigits 3 (pyNatDigits v.natAbs) = d :: rest := by
    cases hL2 : zfillDigits 3 (pyNatDigits v.natAbs) with
    | nil => rw [hL2] at hpos; simp at hpos
    | cons d rest => exact ⟨d, rest, rfl⟩
  have h3 : splitHHMM ⟨true, zfillDigits 3 (pyNatDigits v.natAbs)⟩
      = (-(d : Int), ((digitsToNat rest : Nat) : Int)) := by
    unfold splitHHMM
    rw [hcons]
    rfl
  have htake1 : (zfillDigits 3 (pyNatDigits v.natAbs)).take 1 = [d] := by
    rw [hcons]
    rfl
  have hdrop1 : (zfillDigits 3 (pyNatDigits v.natAbs)).drop 1 = rest := by
    rw [hcons]
    rfl
  obtain ⟨ht, hd2⟩ := digitsToNat_take_drop (zfillDigits 3 (pyNatDigits v.natAbs)) 1 hall
  rw [hvalL, hlenL, htake1] at ht
  rw [hvalL, hlenL, hdrop1] at hd2
  have hdval : d = v.natAbs / 10 ^ (max 3 (digitCount v.natAbs) - 1) := by
    have hsing : digitsToNat [d] = d := by simp [digitsToNat]
    rw [hsing] at ht
    exact ht
  simp only [hhmm_to_minutes_num, h1, h2, h3, hd2, hdval]
  by_cases hc : 0 < v.natAbs / 10 ^ (max 3 (digitCount v.natAbs) - 1)
      ∨ 59 < v.natAbs % 10 ^ (max 3 (digitCount v.natAbs) - 1)
  · rw [if_pos hc, if_pos]
    rcases hc with hc | hc
    · exact Or.inl (by omega)
    · exact Or.inr (Or.inr (Or.inr (by exact_mod_cast hc)))
  · rw [if_neg hc, if_neg]
    · push_neg at hc
      omega
    · push_neg at hc
      intro hcon
      rcases hcon with h | h | h | h <;> omega

/-- On a natural number of minutes, the rational encoder agrees with its
whole-minute image. -/
theorem minutes_to_hhmm_natCast (n : Nat) :
    minutes_to_hhmm (n : ℚ) = hhmmOfNatMinutes n := by
  unfold minutes_to_hhmm hhmmOfNatMinutes
  by_cases h : n = 0
  · subst h
    norm_num
  · have hpos : ¬((n : ℚ) ≤ 0) := by
      push_neg
      exact_mod_cast Nat.pos_of_ne_zero h
    rw [if_neg hpos, if_neg h]
    have hfl : (⌊(n : ℚ)⌋).toNat = n := by
      rw [Int.floor_natCast]
      exact Int.toNat_natCast n
    simp only [hfl]

/-- Value of a pair of 2-zfilled decimal renderings, concatenated. -/
theorem digitsToNat_pad2_pair (H M : Nat) (hM : M < 100) :
    digitsToNat (zfillDigits 2 (pyNatDigits H) ++ zfillDigits 2 (pyNatDigits M))
      = H * 100 + M := by
  have hlen : (zfillDigits 2 (pyNatDigits M)).length = 2 := by
    rw [zfillDigits_length]
    have := pyNatDigits_length_le M 2 (by norm_num) (by omega)
    have := pyNatDigits_length_pos M
    omega
  rw [digitsToNat_append, hlen, digitsToNat_zfill, digitsToNat_zfill,
    pyNatDigits_val, pyNatDigits_val]
  ring

/-- Unfolding of the success path of calculate_progress_data. -/
theorem calculate_progress_data_some (mh : ℚ) (i : HHMMInput) (em : Nat)
    (h : hhmm_to_minutes i = some em) :
    calculate_progress_data ⟨some mh, i⟩ =
      ⟨progress_percent_of (mh * 60) (em : ℚ),
       minutes_to_hhmm (remaining_minutes_of (mh * 60) (em : ℚ)),
       i,
       minutes_to_hhmm (mh * 60),
       remaining_color (remaining_minutes_of (mh * 60) (em : ℚ)),
       remaining_status (remaining_minutes_of (mh * 60) (em : ℚ))⟩ := by
  simp only [calculate_progress_data, h]

/-- Unfolding of the except path of calculate_progress_data: a failing
max cell or an escaping decode both land in the error dictionary. -/
theorem cpd_error_eq (ri : RoleInput)
    (h : ri.maxHours = none ∨ hhmm_to_minutes ri.elapsed = none) :
    calculate_progress_data ri = error_progress_data := by
  unfold calculate_progress_data
  rcases h with h | h
  · cases hel : hhmm_to_minutes ri.elapsed with
    | none => rw [h]
    | some em => rw [h]
  · cases hmx : ri.maxHours with
    | none => rw [h]
    | some mh => rw [h]

/-- Remaining minutes at whole-number inputs is truncated subtraction. -/
theorem remaining_minutes_natCast (M em : Nat) :
    remaining_minutes_of (M : ℚ) (em : ℚ) = ((M - em : Nat) : ℚ) := by
  unfold remaining_minutes_of
  rcases le_or_lt em M with h | h
  · rw [Nat.cast_sub h]
    have hc : (em : ℚ) ≤ (M : ℚ) := by exact_mod_cast h
    rw [max_eq_right (by linarith)]
  · have hz : M - em = 0 := Nat.sub_eq_zero_of_le h.le
    have hc : (M : ℚ) < (em : ℚ) := by exact_mod_cast h
    rw [hz, max_eq_left (by linarith)]
    norm_num

/-- The status tier at a whole number of remaining minutes. -/
theorem remaining_status_natCast (r : Nat) :
    remaining_status (r : ℚ)
      = (if r ≤ 60 then Status.critical
         else if r ≤ 120 then Status.warning else Status.ok) := by
  unfold remaining_status
  by_cases h1 : r ≤ 60
  · rw [if_pos (by exact_mod_cast h1), if_pos h1]
  · rw [if_neg (by exact_mod_cast h1), if_neg h1]
    by_cases h2 : r ≤ 120
    · rw [if_pos (by exact_mod_cast h2), if_pos h2]
    · rw [if_neg (by exact_mod_cast h2), if_neg h2]

/-- Status of a successful role evaluation at whole-hour max duty. -/
theorem cpd_status_nat (H : Nat) (i : HHMMInput) (em : Nat)
    (h : hhmm_to_minutes i = some em) :
    (calculate_progress_data ⟨some ((H : Nat) : ℚ), i⟩).status
      = (if H * 60 - em ≤ 60 then Status.critical
         else if H * 60 - em ≤ 120 then Status.warning else Status.ok) := by
  rw [calculate_progress_data_some _ _ _ h]
  show remaining_status (remaining_minutes_of ((H : ℚ) * 60) (em : ℚ)) = _
  have hM : ((H : ℚ)) * 60 = ((H * 60 : Nat) : ℚ) := by push_cast; ring
  rw [hM, remaining_minutes_natCast, remaining_status_natCast]

/-- Remaining clock string of a successful role evaluation at whole-hour
max duty. -/
theorem cpd_remaining_nat (H : Nat) (i : HHMMInput) (em : Nat)
    (h : hhmm_to_minutes i = some em) :
    (calculate_progress_data ⟨some ((H : Nat) : ℚ), i⟩).remaining_hhmm
      = hhmmOfNatMinutes (H * 60 - em) := by
  rw [calculate_progress_data_some _ _ _ h]
  show minutes_to_hhmm (remaining_minutes_of ((H : ℚ) * 60) (em : ℚ)) = _
  have hM : ((H : ℚ)) * 60 = ((H * 60 : Nat) : ℚ) := by push_cast; ring
  rw [hM, remaining_minutes_natCast, minutes_to_hhmm_natCast]

/-- A role evaluation whose status is not error never carries the gray
error color. -/
theorem cpd_color_not_gray (rj : RoleInput)
    (h : (calculate_progress_data rj).status ≠ Status.error) :
    (calculate_progress_data rj).color ≠ "#95a5a6" := by
  cases hmx : rj.maxHours with
  | none => exact absurd (by rw [cpd_error_eq rj (Or.inl hmx)]; rfl) h
  | some mh =>
    cases hel : hhmm_to_minutes rj.elapsed with
    | none => exact absurd (by rw [cpd_error_eq rj (Or.inr hel)]; rfl) h
    | some em =>
      have hrr : rj = ⟨some mh, rj.elapsed⟩ := by
        rw [← hmx]
      rw [hrr] at hel ⊢
      rw [calculate_progress_data_some mh rj.elapsed em hel]
      show remaining_color (remaining_minutes_of (mh * 60) (em : ℚ)) ≠ _
      unfold remaining_color
      split_ifs <;> decide

/-- The alert-summary fold, characterized from any accumulator. -/
theorem alert_summary_go (rows : List AircraftRow) (acc : List String × List String) :
    rows.foldl alert_step acc
      = (acc.1 ++ (rows.filter (fun r => any_critical r)).map AircraftRow.tail,
         acc.2 ++ (rows.filter (fun r => !any_critical r && any_warning r)).map
            AircraftRow.tail) := by
  induction rows generalizing acc with
  | nil => simp
  | cons r t ih =>
    rw [List.foldl_cons, ih]
    by_cases hc : any_critical r
    · simp [alert_step, hc, List.filter_cons]
    · by_cases hw : any_warning r
      · simp [alert_step, hc, hw, List.filter_cons]
      · simp [alert_step, hc, hw, List.filter_cons]

/-- The critical and warning lists of the alert summary are the tails of
the rows filtered by the two exclusive predicates. -/
theorem alert_summary_eq (rows : List AircraftRow) :
    alert_summary rows
      = ((rows.filter (fun r => any_critical r)).map AircraftRow.tail,
         (rows.filter (fun r => !any_critical r && any_warning r)).map
            AircraftRow.tail) := by
  unfold alert_summary
  rw [alert_summary_go]
  simp

/-- The statistics fold, characterized from any accumulator. -/
theorem alert_counts_go (rows : List AircraftRow) (acc : Nat × Nat) :
    rows.foldl count_step acc
      = (acc.1 + (rows.filter (fun r => any_critical r)).length,
         acc.2 + (rows.filter (fun r => !any_critical r && any_warning r)).length) := by
  induction rows generalizing acc with
  | nil => simp
  | cons r t ih =>
    rw [List.foldl_cons, ih]
    by_cases hc : any_critical r
    · simp [count_step, hc, List.filter_cons]
      omega
    · by_cases hw : any_warning r
      · simp [count_step, hc, hw, List.filter_cons]
        omega
      · simp [count_step, hc, hw, List.filter_cons]

/-- The critical and warning counters of the statistics loop are the
sizes of the same two filtered sets. -/
theorem alert_counts_eq (rows : List AircraftRow) :
    alert_counts rows
      = ((rows.filter (fun r => any_critical r)).length,
         (rows.filter (fun r => !any_critical r && any_warning r)).length) := by
  unfold alert_counts
  rw [alert_counts_go]
  simp

/-- Membership reading of the any-critical test. -/
theorem any_critical_iff (r : AircraftRow) :
    any_critical r = true ↔ Status.critical ∈ row_statuses r := by
  simp [any_critical, List.any_eq_true]

/-- Membership reading of the any-warning test. -/
theorem any_warning_iff (r : AircraftRow) :
    any_warning r = true ↔ Status.warning ∈ row_statuses r := by
  simp [any_warning, List.any_eq_true]

/-- C5 (counterexample): the claim fails as stated on two points.
First, the input need not yield a value at all: a value parsing to an
infinite float makes int() raise OverflowError, which the except clause
does not catch, so decoding raises instead of returning 0 (modelled as
none).  Second, for the parseable value 10159 the claim's reading
(hour = first two digits 10, minute = last two digits 59, both in
range, so 10*60+59 = 659) disagrees with the code, which takes ALL
characters from position 2 on as the minute slice (159, out of range),
returning 0. -/
theorem hhmm_decode_cex :
    hhmm_to_minutes (HHMMInput.infiniteVal false) = none
    ∧ hhmm_to_minutes (HHMMInput.numeric 10159) = some 0
    ∧ 10159 / 1000 = 10 ∧ 10159 % 100 = 59
    ∧ (0 : Nat) ≠ 10 * 60 + 59 := by
  refine ⟨rfl, by decide, by norm_num, by norm_num, by norm_num⟩

/-- C5 (amended): for every input that does not parse to an infinite
float, hhmm_to_minutes returns without error; missing, empty or
unparseable input yields 0; a parseable value is truncated to an
integer, rendered in decimal, zero-padded to 4 characters and split at
position 2 into an hour slice (characters before position 2, sign
included) and a minute slice (ALL remaining digits); out-of-range or
negative slices yield 0, otherwise hour*60 + minute.  The right-hand
side decode_spec states this split arithmetically. -/
theorem hhmm_decode_described (i : HHMMInput)
    (h : ∀ b, i ≠ HHMMInput.infiniteVal b) :
    hhmm_to_minutes i = some (decode_spec i) := by
  cases i with
  | noneVal => rfl
  | nanVal => rfl
  | emptyStr => rfl
  | unparseable => rfl
  | infiniteVal b => exact absurd rfl (h b)
  | numeric v =>
    rcases le_or_lt 0 v with h0 | h0
    · have hv : v = ((v.toNat : Nat) : Int) := (Int.toNat_of_nonneg h0).symm
      show some (hhmm_to_minutes_num v) = some (decode_spec (HHMMInput.numeric v))
      rw [hv, hhmm_num_natCast]
      simp only [decode_spec]
      rw [if_pos (Int.natCast_nonneg v.toNat)]
      simp only [Int.toNat_natCast]
    · show some (hhmm_to_minutes_num v) = some (decode_spec (HHMMInput.numeric v))
      rw [hhmm_num_neg v h0]
      simp only [decode_spec]
      rw [if_neg (not_le.mpr h0)]

/-- C5 (witness): a concrete instance of the amended decoding theorem,
evaluated at the parseable clock value 830. -/
theorem hhmm_decode_described_witness :
    hhmm_to_minutes (HHMMInput.numeric 830) = some 510 :=
  (hhmm_decode_described (HHMMInput.numeric 830)
    (fun _ hc => HHMMInput.noConfusion hc)).trans (by decide)

/-- C6: decoding the encoding of any whole non-negative minute count m
gives back m modulo 1440 (one day); and any non-positive minute count
encodes to the zero clock string 0000. -/
theorem decode_encode_wrap :
    (∀ m : Nat, hhmm_to_minutes
        (HHMMInput.numeric (digitsToNat (minutes_to_hhmm (m : ℚ))))
      = some (m % 1440))
    ∧ (∀ q : ℚ, q ≤ 0 → minutes_to_hhmm q = [0, 0, 0, 0]) := by
  constructor
  · intro m
    rw [minutes_to_hhmm_natCast]
    by_cases h : m = 0
    · subst h
      decide
    · unfold hhmmOfNatMinutes
      rw [if_neg h]
      set H := if 24 ≤ m / 60 then m / 60 % 24 else m / 60 with hHdef
      have hH24 : H = m / 60 % 24 := by
        rw [hHdef]
        split_ifs with hc
        · rfl
        · rw [Nat.mod_eq_of_lt]
          omega
      have hHlt : H < 24 := by
        rw [hH24]
        exact Nat.mod_lt _ (by norm_num)
      have hMlt : m % 60 < 60 := Nat.mod_lt _ (by norm_num)
      rw [digitsToNat_pad2_pair H (m % 60) (by omega)]
      simp only [hhmm_to_minutes]
      rw [hhmm_num_natCast]
      have hdc : digitCount (H * 100 + m % 60) ≤ 4 := by
        rw [digitCount_eq]
        exact pyNatDigits_length_le _ 4 (by norm_num) (by omega)
      have hdcpos : 1 ≤ digitCount (H * 100 + m % 60) := by
        rw [digitCount_eq]
        exact pyNatDigits_length_pos _
      have hmax : max 4 (digitCount (H * 100 + m % 60)) = 4 := by omega
      rw [hmax]
      norm_num
      have hdiv : (H * 100 + m % 60) / 100 = H := by omega
      have hmod : (H * 100 + m % 60) % 100 = m % 60 := by omega
      rw [hdiv, hmod, if_neg (by omega)]
      have hfin : H * 60 + m % 60 = m % 1440 := by
        rw [hH24]
        omega
      rw [hfin]
  · intro q hq
    unfold minutes_to_hhmm
    rw [if_pos hq]

/-- C6 (witness): the round trip at 1500 minutes (25 hours) wraps to 60,
and a negative minute count encodes to 0000. -/
theorem decode_encode_wrap_witness :
    hhmm_to_minutes
        (HHMMInput.numeric (digitsToNat (minutes_to_hhmm ((1500 : Nat) : ℚ))))
      = some 60
    ∧ minutes_to_hhmm (-5 : ℚ) = [0, 0, 0, 0] :=
  ⟨decode_encode_wrap.1 1500, decode_encode_wrap.2 (-5) (by decide)⟩

/-- C10 (counterexample): the claim quantifies over every input
whatsoever, including floats and arbitrary text; but an input parsing
to an infinite float (for example the text inf) makes int() raise an
uncaught OverflowError, so the decoder does not return any integer at
all there. -/
theorem decode_range_cex : hhmm_to_minutes (HHMMInput.infiniteVal false) = none := rfl

/-- C10 (amended): for every input on which hhmm_to_minutes returns at
all (every input not parsing to an infinite float), the returned minute
count lies in the closed range 0 to 1439. -/
theorem decode_range (i : HHMMInput) (r : Nat)
    (h : hhmm_to_minutes i = some r) : r ≤ 1439 := by
  cases i with
  | noneVal => simp only [hhmm_to_minutes, Option.some.injEq] at h; omega
  | nanVal => simp only [hhmm_to_minutes, Option.some.injEq] at h; omega
  | emptyStr => simp only [hhmm_to_minutes, Option.some.injEq] at h; omega
  | unparseable => simp only [hhmm_to_minutes, Option.some.injEq] at h; omega
  | infiniteVal b => simp [hhmm_to_minutes] at h
  | numeric v =>
    simp only [hhmm_to_minutes, Option.some.injEq] at h
    subst h
    simp only [hhmm_to_minutes_num]
    split_ifs with hc
    · omega
    · push_neg at hc
      obtain ⟨h1, h2, h3, h4⟩ := hc
      omega

/-- C10 (witness): the range theorem applied at the concrete clock
value 830, which decodes to 510 minutes. -/
theorem decode_range_witness : (510 : Nat) ≤ 1439 :=
  decode_range (HHMMInput.numeric 830) 510 (by decide)

/-- C1 (code bug): the resolver parses the hour as
int(str(x).zfill(4)[:2]), a two-character value of at most 99, but
compares it against the HHMM-scale constants 500, 800 and 1300, so all
three regulatory bands are unreachable: every digit-string check-in
yields 11 hours for at most 2 segments (10 otherwise).  In particular
0500, 0800, 1300 and 0459 with 2 segments all return 11, where the
claimed table expects 14, 13, 12 and 11. -/
theorem fdp_limits_dead_bands :
    calculate_fdp_limits [0, 5, 0, 0] 2 = 11
    ∧ calculate_fdp_limits [0, 8, 0, 0] 2 = 11
    ∧ calculate_fdp_limits [1, 3, 0, 0] 2 = 11
    ∧ calculate_fdp_limits [0, 4, 5, 9] 2 = 11
    ∧ ∀ (s : List (Fin 10)) (segments : Int),
        calculate_fdp_limits s segments = if segments ≤ 2 then 11 else 10 := by
  refine ⟨by decide, by decide, by decide, by decide, ?_⟩
  intro s segments
  have hall : ∀ d ∈ zfillDigits 4 (s.map Fin.val), d < 10 := by
    apply zfillDigits_lt
    intro d hd
    obtain ⟨x, _, hx⟩ := List.mem_map.mp hd
    rw [← hx]
    exact x.isLt
  have htlt : ∀ d ∈ (zfillDigits 4 (s.map Fin.val)).take 2, d < 10 :=
    fun d hd => hall d ((List.take_sublist _ _).subset hd)
  have h2 := digitsToNat_lt _ htlt
  have h3 : ((zfillDigits 4 (s.map Fin.val)).take 2).length ≤ 2 := by
    simp [List.length_take]
  have h4 : digitsToNat ((zfillDigits 4 (s.map Fin.val)).take 2) < 100 := by
    calc digitsToNat ((zfillDigits 4 (s.map Fin.val)).take 2)
        < 10 ^ ((zfillDigits 4 (s.map Fin.val)).take 2).length := h2
      _ ≤ 10 ^ 2 := Nat.pow_le_pow_right (by norm_num) h3
      _ = 100 := by norm_num
  simp only [calculate_fdp_limits]
  rw [if_neg (by omega), if_neg (by omega), if_neg (by omega)]

/-- C2 (counterexample): an aircraft whose role statuses are error, ok,
ok (here from a non-numeric Captain max cell) contains error and no
critical, yet the card aggregation falls through to the final else
branch and classifies it as the normal aircraft-card; the statistics
loop likewise counts it in neither the critical nor the warning
counter. -/
theorem aggregate_error_cex :
    card_class_of [Status.error, Status.ok, Status.ok] = CardClass.aircraft_card
    ∧ ([Status.error, Status.ok, Status.ok].contains Status.error) = true
    ∧ ([Status.error, Status.ok, Status.ok].contains Status.critical) = false
    ∧ row_statuses errorRow = [Status.error, Status.ok, Status.ok]
    ∧ alert_counts [errorRow] = (0, 0)
    ∧ card_class_of (row_statuses errorRow) = CardClass.aircraft_card := by
  have hok : (calculate_progress_data roleOk).status = Status.ok := by
    show (calculate_progress_data ⟨some ((13 : Nat) : ℚ), HHMMInput.numeric 0⟩).status
      = Status.ok
    rw [cpd_status_nat 13 (HHMMInput.numeric 0) 0 (by decide)]
    decide
  have herr : (calculate_progress_data (⟨none, HHMMInput.noneVal⟩ : RoleInput)).status
      = Status.error := by
    rw [cpd_error_eq _ (Or.inl rfl)]
    rfl
  have hrs : row_statuses errorRow = [Status.error, Status.ok, Status.ok] := by
    show [(calculate_progress_data ⟨none, HHMMInput.noneVal⟩).status,
          (calculate_progress_data roleOk).status,
          (calculate_progress_data roleOk).status] = _
    rw [herr, hok]
  have hac : any_critical errorRow = false := by
    unfold any_critical
    rw [hrs]
    decide
  have haw : any_warning errorRow = false := by
    unfold any_warning
    rw [hrs]
    decide
  refine ⟨by decide, by decide, by decide, hrs, ?_, ?_⟩
  · rw [alert_counts_eq]
    simp [List.filter_cons, hac, haw]
  · rw [hrs]
    decide

/-- C2 (amended): the aggregate card class is the maximum-severity
status among the three role evaluations under the order critical >
warning > normal, with the error tier ranked alongside normal: the
aggregation never inspects error, so an aircraft with an error role and
no critical and no warning role is classified as normal. -/
theorem aggregate_max_severity (s1 s2 s3 : Status) :
    card_class_of [s1, s2, s3]
      = (if max (severity s1) (max (severity s2) (severity s3)) = 2
         then CardClass.critical_card
         else if max (severity s1) (max (severity s2) (severity s3)) = 1
         then CardClass.warning_card
         else CardClass.aircraft_card) := by
  rcases s1 <;> rcases s2 <;> rcases s3 <;> rfl

/-- C3: the status tier of the duty evaluator is a function of the
remaining minutes alone, with inclusive upper bounds: remaining at most
60 is critical, above 60 up to 120 is warning, above 120 is normal
(the source status string ok); the boundary values 60, 61, 120 and 121
land in critical, warning, warning and ok; and on the success path the
evaluator's status field is exactly this function of its remaining
minutes. -/
theorem status_thresholds :
    (∀ r : ℚ,
      (remaining_status r = Status.critical ↔ r ≤ 60)
      ∧ (remaining_status r = Status.warning ↔ 60 < r ∧ r ≤ 120)
      ∧ (remaining_status r = Status.ok ↔ 120 < r))
    ∧ remaining_status 60 = Status.critical
    ∧ remaining_status 61 = Status.warning
    ∧ remaining_status 120 = Status.warning
    ∧ remaining_status 121 = Status.ok
    ∧ ∀ (mh : ℚ) (i : HHMMInput) (em : Nat),
        hhmm_to_minutes i = some em →
        (calculate_progress_data ⟨some mh, i⟩).status
          = remaining_status (remaining_minutes_of (mh * 60) (em : ℚ)) := by
  refine ⟨?_, ?_, ?_, ?_, ?_, ?_⟩
  · intro r
    unfold remaining_status
    split_ifs with h1 h2
    · exact ⟨iff_of_true rfl h1,
        iff_of_false (by decide) (by rintro ⟨ha, _⟩; linarith),
        iff_of_false (by decide) (by intro ha; linarith)⟩
    · exact ⟨iff_of_false (by decide) h1,
        iff_of_true rfl ⟨not_le.mp h1, h2⟩,
        iff_of_false (by decide) (by intro ha; linarith)⟩
    · exact ⟨iff_of_false (by decide) h1,
        iff_of_false (by decide) (by rintro ⟨_, hb⟩; exact h2 hb),
        iff_of_true rfl (not_le.mp h2)⟩
  · norm_num [remaining_status]
  · norm_num [remaining_status]
  · norm_num [remaining_status]
  · norm_num [remaining_status]
  · intro mh i em h
    rw [calculate_progress_data_some mh i em h]

/-- C3 (witness): the evaluator-status conjunct applied at a 13 hour
maximum with nothing elapsed. -/
theorem status_thresholds_witness :
    (calculate_progress_data ⟨some (13 : ℚ), HHMMInput.numeric 0⟩).status
      = remaining_status (remaining_minutes_of ((13 : ℚ) * 60) ((0 : Nat) : ℚ)) :=
  status_thresholds.2.2.2.2.2 13 (HHMMInput.numeric 0) 0 (by decide)

/-- C4: on a successful role evaluation, remaining minutes is
max(0, max_hours*60 - decoded elapsed) and hence never negative; the
percent consumed is min(100, elapsed/max*100) when max minutes is
positive, in which case it always lies between 0 and 100; and when max
minutes is not positive the guard yields percent 0. -/
theorem duty_remaining_percent (mh : ℚ) (i : HHMMInput) (em : Nat)
    (h : hhmm_to_minutes i = some em) :
    0 ≤ remaining_minutes_of (mh * 60) (em : ℚ)
    ∧ remaining_minutes_of (mh * 60) (em : ℚ) = max 0 (mh * 60 - (em : ℚ))
    ∧ (calculate_progress_data ⟨some mh, i⟩).progress_percent
        = progress_percent_of (mh * 60) (em : ℚ)
    ∧ (0 < mh * 60 →
        progress_percent_of (mh * 60) (em : ℚ)
            = min 100 ((em : ℚ) / (mh * 60) * 100)
        ∧ 0 ≤ progress_percent_of (mh * 60) (em : ℚ)
        ∧ progress_percent_of (mh * 60) (em : ℚ) ≤ 100)
    ∧ (¬ 0 < mh * 60 → progress_percent_of (mh * 60) (em : ℚ) = 0) := by
  refine ⟨le_max_left 0 _, rfl, ?_, ?_, ?_⟩
  · rw [calculate_progress_data_some mh i em h]
  · intro hpos
    unfold progress_percent_of
    rw [if_pos hpos]
    have h1 : 0 ≤ (em : ℚ) / (mh * 60) * 100 :=
      mul_nonneg (div_nonneg (Nat.cast_nonneg em) hpos.le) (by norm_num)
    exact ⟨rfl, le_min (by norm_num) h1, min_le_left _ _⟩
  · intro hneg
    unfold progress_percent_of
    rw [if_neg hneg]

/-- C4 (witness): the percent identity applied at 13 hours maximum and
elapsed 0430 (270 minutes). -/
theorem duty_remaining_percent_witness :
    (calculate_progress_data ⟨some (13 : ℚ), HHMMInput.numeric 430⟩).progress_percent
      = progress_percent_of ((13 : ℚ) * 60) ((270 : Nat) : ℚ) :=
  (duty_remaining_percent 13 (HHMMInput.numeric 430) 270 (by decide)).2.2.1

/-- C7: the fleet summary: total is the record count; the critical list
collects the tails of the rows whose aggregate (any-role) status is
critical; the warning list the tails of the rows with a warning role
and no critical role; the two defining predicates are mutually
exclusive, so every row lands in exactly one of critical, warning or
neither; the reported counters equal the list lengths; and on three
aircraft with aggregate statuses critical, warning and normal, the
summary is total 3 with lists (N1) and (N2), tail N3 in neither. -/
theorem fleet_summary_spec :
    (∀ rows : List AircraftRow, total_aircraft rows = rows.length)
    ∧ (∀ rows : List AircraftRow,
        (alert_summary rows).1
          = (rows.filter (fun r => any_critical r)).map AircraftRow.tail)
    ∧ (∀ rows : List AircraftRow,
        (alert_summary rows).2
          = (rows.filter (fun r => !any_critical r && any_warning r)).map
              AircraftRow.tail)
    ∧ (∀ rows : List AircraftRow,
        alert_counts rows
          = ((alert_summary rows).1.length, (alert_summary rows).2.length))
    ∧ (∀ r : AircraftRow, any_critical r = true ↔ Status.critical ∈ row_statuses r)
    ∧ (∀ r : AircraftRow, (any_critical r && (!any_critical r && any_warning r)) = false)
    ∧ total_aircraft summaryDemoRows = 3
    ∧ alert_summary summaryDemoRows = (["N1"], ["N2"])
    ∧ alert_counts summaryDemoRows = (1, 1) := by
  have hok : (calculate_progress_data roleOk).status = Status.ok := by
    show (calculate_progress_data ⟨some ((13 : Nat) : ℚ), HHMMInput.numeric 0⟩).status
      = Status.ok
    rw [cpd_status_nat 13 (HHMMInput.numeric 0) 0 (by decide)]
    decide
  have hcrit : (calculate_progress_data roleCritical).status = Status.critical := by
    show (calculate_progress_data ⟨some ((1 : Nat) : ℚ), HHMMInput.numeric 0⟩).status
      = Status.critical
    rw [cpd_status_nat 1 (HHMMInput.numeric 0) 0 (by decide)]
    decide
  have hwarn : (calculate_progress_data roleWarning).status = Status.warning := by
    show (calculate_progress_data ⟨some ((2 : Nat) : ℚ), HHMMInput.numeric 0⟩).status
      = Status.warning
    rw [cpd_status_nat 2 (HHMMInput.numeric 0) 0 (by decide)]
    decide
  have hs1 : row_statuses ⟨"N1", roleCritical, roleOk, roleOk⟩
      = [Status.critical, Status.ok, Status.ok] := by
    show [(calculate_progress_data roleCritical).status,
          (calculate_progress_data roleOk).status,
          (calculate_progress_data roleOk).status] = _
    rw [hcrit, hok]
  have hs2 : row_statuses ⟨"N2", roleWarning, roleOk, roleOk⟩
      = [Status.warning, Status.ok, Status.ok] := by
    show [(calculate_progress_data roleWarning).status,
          (calculate_progress_data roleOk).status,
          (calculate_progress_data roleOk).status] = _
    rw [hwarn, hok]
  have hs3 : row_statuses ⟨"N3", roleOk, roleOk, roleOk⟩
      = [Status.ok, Status.ok, Status.ok] := by
    show [(calculate_progress_data roleOk).status,
          (calculate_progress_data roleOk).status,
          (calculate_progress_data roleOk).status] = _
    rw [hok]
  have ha1c : any_critical ⟨"N1", roleCritical, roleOk, roleOk⟩ = true := by
    unfold any_critical
    rw [hs1]
    decide
  have ha2c : any_critical ⟨"N2", roleWarning, roleOk, roleOk⟩ = false := by
    unfold any_critical
    rw [hs2]
    decide
  have ha2w : any_warning ⟨"N2", roleWarning, roleOk, roleOk⟩ = true := by
    unfold any_warning
    rw [hs2]
    decide
  have ha3c : any_critical ⟨"N3", roleOk, roleOk, roleOk⟩ = false := by
    unfold any_critical
    rw [hs3]
    decide
  have ha3w : any_warning ⟨"N3", roleOk, roleOk, roleOk⟩ = false := by
    unfold any_warning
    rw [hs3]
    decide
  refine ⟨fun rows => rfl, ?_, ?_, ?_, any_critical_iff, ?_, rfl, ?_, ?_⟩
  · intro rows
    rw [alert_summary_eq]
  · intro rows
    rw [alert_summary_eq]
  · intro rows
    rw [alert_counts_eq, alert_summary_eq]
    simp
  · intro r
    cases hc : any_critical r <;> simp
  · rw [alert_summary_eq]
    simp [summaryDemoRows, List.filter_cons, ha1c, ha2c, ha2w, ha3c, ha3w]
  · rw [alert_counts_eq]
    simp [summaryDemoRows, List.filter_cons, ha1c, ha2c, ha2w, ha3c, ha3w]

/-- C8: any internal failure of the duty evaluator (a non-numeric max
cell, modelled by a none max, or an elapsed value whose decode escapes)
never propagates to the caller: the evaluator is total, such inputs
yield the dedicated error dictionary with zero percent, zero clock
fields, error status and the gray marker color, no non-error
evaluation ever carries that color, and a batch of rows always yields
exactly one status triple per row. -/
theorem evaluator_absorbs (ri : RoleInput)
    (h : ri.maxHours = none ∨ hhmm_to_minutes ri.elapsed = none) :
    calculate_progress_data ri = error_progress_data
    ∧ (calculate_progress_data ri).status = Status.error
    ∧ (calculate_progress_data ri).progress_percent = 0
    ∧ (calculate_progress_data ri).remaining_hhmm = [0, 0, 0, 0]
    ∧ (calculate_progress_data ri).max_hhmm = [0, 0, 0, 0]
    ∧ (calculate_progress_data ri).color = "#95a5a6"
    ∧ (∀ rj : RoleInput, (calculate_progress_data rj).status ≠ Status.error →
        (calculate_progress_data rj).color ≠ "#95a5a6")
    ∧ (∀ rows : List AircraftRow, (rows.map row_statuses).length = rows.length) := by
  have hmain := cpd_error_eq ri h
  refine ⟨hmain, ?_, ?_, ?_, ?_, ?_, cpd_color_not_gray, fun rows => by simp⟩ <;>
    rw [hmain] <;> rfl

/-- C8 (witness): the absorption theorem applied at a role input whose
max cell fails. -/
theorem evaluator_absorbs_witness :
    calculate_progress_data ⟨none, HHMMInput.noneVal⟩ = error_progress_data :=
  (evaluator_absorbs ⟨none, HHMMInput.noneVal⟩ (Or.inl rfl)).1

/-- C9: the headline remaining figure of the aircraft card is exactly
the Captain role's remaining clock string, a fixed convention rather
than a minimum: on a concrete aircraft whose Captain has 180 minutes
remaining (0300) and whose First Officer has only 60 (0100), the
headline shows 0300, not the smaller 0100. -/
theorem headline_is_captain :
    (∀ (t : String) (d : AircraftProgress),
        (create_aircraft_card t d).headline_remaining = d.CA.remaining_hhmm)
    ∧ (create_aircraft_card "N123AA" headline_demo).headline_remaining = [0, 3, 0, 0]
    ∧ headline_demo.FO.remaining_hhmm = [0, 1, 0, 0]
    ∧ (([0, 3, 0, 0] : List Nat) == [0, 1, 0, 0]) = false := by
  refine ⟨fun t d => rfl, ?_, ?_, by decide⟩
  · show (calculate_progress_data
        ⟨some ((4 : Nat) : ℚ), HHMMInput.numeric 100⟩).remaining_hhmm = [0, 3, 0, 0]
    rw [cpd_remaining_nat 4 (HHMMInput.numeric 100) 60 (by decide)]
    decide
  · show (calculate_progress_data
        ⟨some ((4 : Nat) : ℚ), HHMMInput.numeric 300⟩).remaining_hhmm = [0, 1, 0, 0]
    rw [cpd_remaining_nat 4 (HHMMInput.numeric 300) 180 (by decide)]
    decide

end FlightTracker
